import Mathlib

/-!
A shallow embedding of the `xmodem` crate (`src/lib.rs`) and proofs about it.

Bytes are modelled as `Nat` (with `% 256` where the Rust code relies on
`u8` wrapping).  The duplex channel `dev` is modelled as a pair of lists:
`incoming` is the sequence of read results still to be delivered (`some b`
is a byte, `none` is a read that times out; an exhausted list also times
out, like a quiet line with a read timeout configured), and `outgoing`
accumulates every byte written.  Writes always succeed.  The sender's
input source and the receiver's output sink are byte lists; `stream.read`
on a list source returns up to the requested number of bytes, like the
slice readers used by the crate's tests.  Loops carry an explicit `fuel`
bound and return `none` when it runs out; theorems instantiate `fuel`
large enough for the run they describe.
-/

namespace Xmodemrs

/-- Wire constant SOH (`const SOH: u8 = 0x01`). -/
def SOH : Nat := 0x01
/-- Wire constant STX (`const STX: u8 = 0x02`). -/
def STX : Nat := 0x02
/-- Wire constant EOT (`const EOT: u8 = 0x04`). -/
def EOT : Nat := 0x04
/-- Wire constant ACK (`const ACK: u8 = 0x06`). -/
def ACK : Nat := 0x06
/-- Wire constant NAK (`const NAK: u8 = 0x15`). -/
def NAK : Nat := 0x15
/-- Wire constant CAN (`const CAN: u8 = 0x18`). -/
def CAN : Nat := 0x18
/-- Wire constant CRC (`const CRC: u8 = 0x43`). -/
def CRC : Nat := 0x43

/-- `io::ErrorKind` (the `no_std` subset in `lib.rs`). -/
inductive IoErrorKind where
  | TimedOut
  | Other
deriving DecidableEq, Repr

/-- `enum Error` from `lib.rs`. -/
inductive Error where
  | Io (kind : IoErrorKind)
  | ExhaustedRetries
  | Canceled
  | Invalid
  | SequenceMismatch
  | Checksum
deriving DecidableEq, Repr

instance exceptDecEq {ε α : Type} [DecidableEq ε] [DecidableEq α] :
    DecidableEq (Except ε α) := fun x y =>
  match x, y with
  | .error a, .error b =>
    decidable_of_iff (a = b) ⟨fun h => h ▸ rfl, fun h => by injection h⟩
  | .error _, .ok _ => .isFalse fun h => Except.noConfusion h
  | .ok _, .error _ => .isFalse fun h => Except.noConfusion h
  | .ok a, .ok b =>
    decidable_of_iff (a = b) ⟨fun h => h ▸ rfl, fun h => by injection h⟩

/-- `enum Checksum` from `lib.rs`. -/
inductive Checksum where
  | Standard
  | CRC16
deriving DecidableEq, Repr

/-- `enum BlockLength` from `lib.rs`. -/
inductive BlockLength where
  | Standard
  | OneK
deriving DecidableEq, Repr

/-- The numeric value of a `BlockLength` (`Standard = 128`, `OneK = 1024`). -/
def BlockLength.toNat : BlockLength → Nat
  | .Standard => 128
  | .OneK => 1024

/-- The duplex channel `dev`: pending read results and accumulated writes. -/
structure Dev where
  incoming : List (Option Nat)
  outgoing : List Nat
deriving DecidableEq, Repr

/-- `write_all`: writes always succeed and append to `outgoing`. -/
def writeAll (d : Dev) (bs : List Nat) : Dev :=
  { d with outgoing := d.outgoing ++ bs }

/-- `fn get_byte`: one blocking read of a single byte.  A pending `none`
(or an exhausted incoming list) is a timed-out read. -/
def getByte (d : Dev) : Except Error Nat × Dev :=
  match d.incoming with
  | [] => (.error (.Io .TimedOut), d)
  | some b :: rest => (.ok b, { d with incoming := rest })
  | none :: rest => (.error (.Io .TimedOut), { d with incoming := rest })

/-- `fn get_byte_timeout`: turns timeout errors into `Ok(None)`. -/
def getByteTimeout (d : Dev) : Except Error (Option Nat) × Dev :=
  match getByte d with
  | (.ok c, d) => (.ok (some c), d)
  | (.error (.Io .TimedOut), d) => (.ok none, d)
  | (.error e, d) => (.error e, d)

/-- `read_exact` of `n` bytes from the channel, one `get_byte` at a time. -/
def readBytes : Dev → Nat → Except Error (List Nat) × Dev
  | d, 0 => (.ok [], d)
  | d, n + 1 =>
    match getByte d with
    | (.error e, d) => (.error e, d)
    | (.ok b, d) =>
      match readBytes d n with
      | (.error e, d) => (.error e, d)
      | (.ok bs, d) => (.ok (b :: bs), d)

/-- `fn calc_checksum`: 8-bit wrapping sum of the payload bytes. -/
def calc_checksum (data : List Nat) : Nat :=
  data.foldl (fun x y => (x + y) % 256) 0

/-- One shift step of CRC-16/XMODEM on a 16-bit accumulator. -/
def crcStep (crc : Nat) : Nat :=
  if 32768 ≤ crc then ((crc % 32768) * 2) ^^^ 4129 else crc * 2

/-- Feeding one byte into the CRC-16/XMODEM accumulator. -/
def crcFeed (crc b : Nat) : Nat :=
  crcStep^[8] (crc ^^^ (b % 256) * 256)

/-- Modelled from the spec: `fn calc_crc` delegates to the external `crc16`
crate (`crc16::State::<crc16::XMODEM>::calculate`), which is not part of
this repository's sources.  Per the spec it is CRC-16/XMODEM: polynomial
0x1021, initial value 0, no input/output reflection, computed over the
payload bytes only. -/
def calc_crc (data : List Nat) : Nat :=
  data.foldl crcFeed 0

/-- `struct XmodemPacket`: sequence byte plus a payload buffer whose size
is fixed by the block-length variant. -/
structure XmodemPacket where
  seqno : Nat
  bl : BlockLength
  data : List Nat
deriving DecidableEq, Repr

/-- `XmodemPacket::new`: a packet whose buffer is filled with the pad byte. -/
def XmodemPacket.new (l : BlockLength) (pad : Nat) : XmodemPacket :=
  { seqno := 0, bl := l, data := List.replicate l.toNat pad }

/-- The bytes `XmodemPacket::send` writes to the channel: marker byte,
seqno, `0xFF - seqno`, payload, then 1 or 2 redundancy bytes. -/
def XmodemPacket.sendBytes (p : XmodemPacket) (c : Checksum) : List Nat :=
  (match p.bl with
   | .Standard => SOH
   | .OneK => STX) :: p.seqno :: (255 - p.seqno) ::
    (p.data ++
      match c with
      | .Standard => [calc_checksum p.data]
      | .CRC16 => [calc_crc p.data / 256, calc_crc p.data % 256])

/-- Reading and testing the trailing redundancy bytes in
`XmodemPacket::recv_next` (`checksum_ok`). -/
def readChecksumOk (d : Dev) (c : Checksum) (payload : List Nat) :
    Except Error Bool × Dev :=
  match c with
  | .Standard =>
    match getByte d with
    | (.error e, d) => (.error e, d)
    | (.ok cs, d) => (.ok (calc_checksum payload == cs), d)
  | .CRC16 =>
    match getByte d with
    | (.error e, d) => (.error e, d)
    | (.ok hi, d) =>
      match getByte d with
      | (.error e, d) => (.error e, d)
      | (.ok lo, d) => (.ok (calc_crc payload == hi * 256 + lo), d)

/-- The body of `XmodemPacket::recv_next` after the marker byte selected a
block length: read seqno, its complement, the full payload and the
redundancy bytes, then evaluate the complement check before the checksum
check. -/
def recvFrame (d : Dev) (c : Checksum) (bl : BlockLength) :
    Except Error (Option XmodemPacket) × Dev :=
  match getByte d with
  | (.error e, d) => (.error e, d)
  | (.ok recv_seqno, d) =>
    match getByte d with
    | (.error e, d) => (.error e, d)
    | (.ok recv_seqno1c, d) =>
      match readBytes d bl.toNat with
      | (.error e, d) => (.error e, d)
      | (.ok payload, d) =>
        match readChecksumOk d c payload with
        | (.error e, d) => (.error e, d)
        | (.ok checksum_ok, d) =>
          if 255 - recv_seqno ≠ recv_seqno1c then
            (.error .SequenceMismatch, d)
          else if checksum_ok then
            (.ok (some { seqno := recv_seqno, bl := bl, data := payload }), d)
          else
            (.error .Checksum, d)

/-- `XmodemPacket::recv_next`: dispatch on the leading byte. -/
def recv_next (d : Dev) (c : Checksum) :
    Except Error (Option XmodemPacket) × Dev :=
  match getByte d with
  | (.error e, d) => (.error e, d)
  | (.ok b, d) =>
    if b = SOH then recvFrame d c .Standard
    else if b = STX then recvFrame d c .OneK
    else if b = EOT then (.ok none, d)
    else (.error .Invalid, d)

/-- `struct Xmodem`: the transfer configuration, including the internal
error counter. -/
structure Xmodem where
  max_errors : Nat
  pad_byte : Nat
  block_length : BlockLength
  checksum_mode : Checksum
  errors : Nat
deriving DecidableEq, Repr

/-- `Xmodem::new`: the default configuration. -/
def Xmodem.new : Xmodem :=
  { max_errors := 16
    pad_byte := 0x1a
    block_length := .Standard
    checksum_mode := .Standard
    errors := 0 }

/-- The loop of `Xmodem::start_send`: wait for the handshake byte, with
retry, cancellation and error-budget handling. -/
def startSendLoop : Nat → Xmodem → Nat → Dev →
    Option (Except Error Unit × Xmodem × Dev)
  | 0, _, _, _ => none
  | fuel + 1, self, cancels, d =>
    match getByteTimeout d with
    | (.error e, d) => some (.error e, self, d)
    | (.ok (some b), d) =>
      if b = NAK then
        some (.ok (), { self with checksum_mode := .Standard }, d)
      else if b = CRC then
        some (.ok (), { self with checksum_mode := .CRC16 }, d)
      else
        let cancels := if b = CAN then cancels + 1 else cancels
        let self := { self with errors := self.errors + 1 }
        if 2 ≤ cancels then some (.error .Canceled, self, d)
        else if self.max_errors ≤ self.errors then
          some (.error .ExhaustedRetries, self, writeAll d [CAN])
        else startSendLoop fuel self cancels d
    | (.ok none, d) =>
      let self := { self with errors := self.errors + 1 }
      if 2 ≤ cancels then some (.error .Canceled, self, d)
      else if self.max_errors ≤ self.errors then
        some (.error .ExhaustedRetries, self, writeAll d [CAN])
      else startSendLoop fuel self cancels d

/-- Filling a fresh packet buffer with the chunk returned by
`stream.read(packet.as_mut())`. -/
def fillPacket (p : XmodemPacket) (chunk : List Nat) : XmodemPacket :=
  { p with data := chunk ++ p.data.drop chunk.length }

/-- The loop of `Xmodem::send_stream`: read a chunk from the source, stop
at EOF, otherwise transmit the block and wait for the response byte. -/
def sendStreamLoop : Nat → Xmodem → List Nat → Nat → Nat → Dev →
    Option (Except Error Nat × Xmodem × Dev)
  | 0, _, _, _, _, _ => none
  | fuel + 1, self, stream, seqno, bytes, d =>
    let packet := XmodemPacket.new self.block_length self.pad_byte
    let chunk := stream.take self.block_length.toNat
    let n := chunk.length
    if n = 0 then some (.ok bytes, self, d)
    else
      let seqno := (seqno + 1) % 4294967296
      let packet := { fillPacket packet chunk with seqno := seqno % 256 }
      let d := writeAll d (packet.sendBytes self.checksum_mode)
      let bytes := bytes + n
      let stream := stream.drop self.block_length.toNat
      match getByteTimeout d with
      | (.error e, d) => some (.error e, self, d)
      | (.ok (some b), d) =>
        if b = ACK then sendStreamLoop fuel self stream seqno bytes d
        else
          let self := { self with errors := self.errors + 1 }
          if self.max_errors ≤ self.errors then
            some (.error .ExhaustedRetries, self, d)
          else sendStreamLoop fuel self stream seqno bytes d
      | (.ok none, d) =>
        let self := { self with errors := self.errors + 1 }
        if self.max_errors ≤ self.errors then
          some (.error .ExhaustedRetries, self, d)
        else sendStreamLoop fuel self stream seqno bytes d

/-- `Xmodem::send_stream`: block counter and byte count start at zero. -/
def send_stream (fuel : Nat) (self : Xmodem) (stream : List Nat) (d : Dev) :
    Option (Except Error Nat × Xmodem × Dev) :=
  sendStreamLoop fuel self stream 0 0 d

/-- The loop of `Xmodem::finish_send`: send EOT and wait for ACK, with
retry and error-budget handling. -/
def finishSendLoop : Nat → Xmodem → Dev →
    Option (Except Error Unit × Xmodem × Dev)
  | 0, _, _ => none
  | fuel + 1, self, d =>
    let d := writeAll d [EOT]
    match getByteTimeout d with
    | (.error e, d) => some (.error e, self, d)
    | (.ok (some b), d) =>
      if b = ACK then some (.ok (), self, d)
      else
        let self := { self with errors := self.errors + 1 }
        if self.max_errors ≤ self.errors then
          some (.error .ExhaustedRetries, self, d)
        else finishSendLoop fuel self d
    | (.ok none, d) =>
      let self := { self with errors := self.errors + 1 }
      if self.max_errors ≤ self.errors then
        some (.error .ExhaustedRetries, self, d)
      else finishSendLoop fuel self d

/-- `Xmodem::send`: reset the error counter, run the handshake, the block
loop and the EOT exchange. -/
def send (fuel : Nat) (self : Xmodem) (d : Dev) (stream : List Nat) :
    Option (Except Error Nat × Xmodem × Dev) :=
  let self := { self with errors := 0 }
  match startSendLoop fuel self 0 d with
  | none => none
  | some (.error e, self, d) => some (.error e, self, d)
  | some (.ok _, self, d) =>
    match sendStreamLoop fuel self stream 0 0 d with
    | none => none
    | some (.error e, self, d) => some (.error e, self, d)
    | some (.ok bytes, self, d) =>
      match finishSendLoop fuel self d with
      | none => none
      | some (.error e, self, d) => some (.error e, self, d)
      | some (.ok _, self, d) => some (.ok bytes, self, d)

/-- The loop of `Xmodem::recv`: budget check at the top, then decode one
frame and dispatch on the outcome.  Returns the result, the final
configuration, the output sink contents and the final channel state. -/
def recvLoop : Nat → Xmodem → Nat → Nat → List Nat → Dev →
    Option (Except Error Nat × Xmodem × List Nat × Dev)
  | 0, _, _, _, _, _ => none
  | fuel + 1, self, seqno, bytes, sink, d =>
    if self.max_errors ≤ self.errors then
      some (.error .ExhaustedRetries, self, sink, writeAll d [CAN, CAN])
    else
      match recv_next d self.checksum_mode with
      | (.ok (some x), d) =>
        if x.seqno ≠ seqno % 256 then
          some (.error .Canceled, self, sink, writeAll d [CAN, CAN])
        else
          let sink := sink ++ x.data
          let d := writeAll d [ACK]
          recvLoop fuel self ((seqno + 1) % 4294967296)
            (bytes + x.data.length) sink d
      | (.ok none, d) => some (.ok bytes, self, sink, writeAll d [ACK])
      | (.error (.Io .TimedOut), d) =>
        recvLoop fuel { self with errors := self.errors + 1 }
          seqno bytes sink d
      | (.error (.Io .Other), d) => some (.error (.Io .Other), self, sink, d)
      | (.error .Checksum, d) =>
        recvLoop fuel { self with errors := self.errors + 1 }
          seqno bytes sink (writeAll d [NAK])
      | (.error .SequenceMismatch, d) =>
        some (.error .Canceled, self, sink, writeAll d [CAN, CAN])
      | (.error .Invalid, d) => recvLoop fuel self seqno bytes sink d
      | (.error e, d) => some (.error e, self, sink, d)

/-- `Xmodem::recv`: reset the error counter, adopt the caller's checksum
mode, announce it on the channel, then run the reception loop with the
expected sequence counter starting at 1. -/
def recv (fuel : Nat) (self : Xmodem) (d : Dev) (checksum : Checksum) :
    Option (Except Error Nat × Xmodem × List Nat × Dev) :=
  let self := { self with errors := 0, checksum_mode := checksum }
  let d := writeAll d
    [match self.checksum_mode with
     | .Standard => NAK
     | .CRC16 => CRC]
  recvLoop fuel self 1 0 [] d

/-! ### Basic channel lemmas -/

theorem getByte_nil (out : List Nat) :
    getByte ⟨[], out⟩ = (.error (.Io .TimedOut), ⟨[], out⟩) := rfl

theorem getByte_some (b : Nat) (t : List (Option Nat)) (out : List Nat) :
    getByte ⟨some b :: t, out⟩ = (.ok b, ⟨t, out⟩) := rfl

theorem getByte_none (t : List (Option Nat)) (out : List Nat) :
    getByte ⟨none :: t, out⟩ = (.error (.Io .TimedOut), ⟨t, out⟩) := rfl

theorem getByteTimeout_nil (out : List Nat) :
    getByteTimeout ⟨[], out⟩ = (.ok none, ⟨[], out⟩) := rfl

theorem getByteTimeout_some (b : Nat) (t : List (Option Nat)) (out : List Nat) :
    getByteTimeout ⟨some b :: t, out⟩ = (.ok (some b), ⟨t, out⟩) := rfl

theorem getByteTimeout_none (t : List (Option Nat)) (out : List Nat) :
    getByteTimeout ⟨none :: t, out⟩ = (.ok none, ⟨t, out⟩) := rfl

theorem readBytes_map_some (l : List Nat) :
    ∀ (t : List (Option Nat)) (out : List Nat),
      readBytes ⟨l.map some ++ t, out⟩ l.length = (.ok l, ⟨t, out⟩) := by
  induction l with
  | nil => intro t out; rfl
  | cons b l ih => intro t out; simp [readBytes, getByte, ih]

/-! ### Frame decode lemmas -/

theorem recv_next_eot (c : Checksum) (t : List (Option Nat)) (out : List Nat) :
    recv_next ⟨some EOT :: t, out⟩ c = (.ok none, ⟨t, out⟩) := by
  simp [recv_next, getByte, SOH, STX, EOT]

theorem recv_next_noise (c : Checksum) (b : Nat) (t : List (Option Nat))
    (out : List Nat) (h1 : b ≠ SOH) (h2 : b ≠ STX) (h3 : b ≠ EOT) :
    recv_next ⟨some b :: t, out⟩ c = (.error .Invalid, ⟨t, out⟩) := by
  simp [recv_next, getByte, h1, h2, h3]

/-- Decoding an encoded frame recovers the packet and consumes exactly the
frame's bytes. -/
theorem recv_next_encoded (p : XmodemPacket) (c : Checksum)
    (t : List (Option Nat)) (out : List Nat)
    (h : p.data.length = p.bl.toNat) :
    recv_next ⟨(p.sendBytes c).map some ++ t, out⟩ c = (.ok (some p), ⟨t, out⟩) := by
  obtain ⟨s, bl, data⟩ := p
  simp only [XmodemPacket.sendBytes] at *
  cases bl <;> cases c <;>
    simp only [BlockLength.toNat] at h <;>
    simp [recv_next, getByte, SOH, STX, recvFrame, BlockLength.toNat, ← h,
      readBytes_map_some, readChecksumOk, Nat.div_add_mod']

/-! ### The wire image of a successful transfer -/

/-- The number of blocks a source of `L` bytes is split into. -/
def numBlocks (L bl : Nat) : Nat := (L + bl - 1) / bl

/-- A chunk read from the source, padded with the pad byte to the full
block length (what ends up in the packet buffer). -/
def padChunk (bl : BlockLength) (pad : Nat) (chunk : List Nat) : List Nat :=
  chunk ++ List.replicate (bl.toNat - chunk.length) pad

/-- The concatenated frames the sender emits for `n` blocks of `stream`,
starting after logical block counter `seqno`. -/
def framesN (c : Checksum) (bl : BlockLength) (pad : Nat) :
    Nat → List Nat → Nat → List Nat
  | 0, _, _ => []
  | n + 1, stream, seqno =>
    XmodemPacket.sendBytes
        ⟨(seqno + 1) % 4294967296 % 256, bl, padChunk bl pad (stream.take bl.toNat)⟩ c
      ++ framesN c bl pad n (stream.drop bl.toNat) ((seqno + 1) % 4294967296)

/-- The concatenated padded payloads of `n` blocks of `stream`. -/
def paddedN (bl : BlockLength) (pad : Nat) : Nat → List Nat → List Nat
  | 0, _ => []
  | n + 1, stream =>
    padChunk bl pad (stream.take bl.toNat)
      ++ paddedN bl pad n (stream.drop bl.toNat)

/-- The mode-request byte the receiver announces (NAK or the CRC byte). -/
def ncgByte : Checksum → Nat
  | .Standard => NAK
  | .CRC16 => CRC

/-- The two possible block-length values, as a proposition on `Nat`. -/
def isBL (blv : Nat) : Prop := blv = 128 ∨ blv = 1024

theorem isBL_toNat (bl : BlockLength) : isBL bl.toNat := by
  cases bl <;> simp [isBL, BlockLength.toNat]

theorem numBlocks_eq_zero {blv L : Nat} (hb : isBL blv)
    (h : numBlocks L blv = 0) : L = 0 := by
  unfold numBlocks at h
  rcases hb with h' | h' <;> subst h' <;> omega

theorem numBlocks_drop {blv L n : Nat} (hb : isBL blv)
    (h : numBlocks L blv = n + 1) : numBlocks (L - blv) blv = n := by
  unfold numBlocks at *
  rcases hb with h' | h' <;> subst h' <;> omega

theorem numBlocks_pos_of_ne {blv L : Nat} (hb : isBL blv) (h : L ≠ 0) :
    numBlocks L blv ≠ 0 := by
  unfold numBlocks
  rcases hb with h' | h' <;> subst h' <;> omega

theorem padChunk_length (bl : BlockLength) (pad : Nat) (chunk : List Nat)
    (h : chunk.length ≤ bl.toNat) :
    (padChunk bl pad chunk).length = bl.toNat := by
  simp [padChunk]
  omega

theorem fillPacket_new (l : BlockLength) (pad : Nat) (chunk : List Nat) :
    fillPacket (XmodemPacket.new l pad) chunk
      = ⟨0, l, padChunk l pad chunk⟩ := by
  simp [fillPacket, XmodemPacket.new, padChunk, List.drop_replicate]

/-- `paddedN` is the input followed by the pad bytes that complete the
final block. -/
theorem paddedN_eq (bl : BlockLength) (pad : Nat) :
    ∀ (n : Nat) (stream : List Nat),
      numBlocks stream.length bl.toNat = n →
      paddedN bl pad n stream
        = stream ++ List.replicate
            ((bl.toNat - stream.length % bl.toNat) % bl.toNat) pad := by
  intro n
  induction n with
  | zero =>
    intro stream h
    have h0 : stream.length = 0 := numBlocks_eq_zero (isBL_toNat bl) h
    have h0' : stream = [] := List.eq_nil_of_length_eq_zero h0
    subst h0'
    rcases isBL_toNat bl with h' | h' <;> simp [paddedN, h']
  | succ n ih =>
    intro stream h
    have hb := isBL_toNat bl
    have hlen : stream.length ≠ 0 := by
      intro h0
      rw [h0] at h
      unfold numBlocks at h
      rcases hb with h' | h' <;> rw [h'] at h <;> omega
    have hd : numBlocks (stream.drop bl.toNat).length bl.toNat = n := by
      rw [List.length_drop]
      exact numBlocks_drop hb h
    rw [paddedN, ih _ hd, padChunk, List.length_drop]
    by_cases hc : stream.length ≤ bl.toNat
    · rw [List.drop_eq_nil_of_le hc, List.take_of_length_le hc]
      simp only [List.nil_append, List.append_assoc, ← List.replicate_add]
      congr 2
      rcases hb with h' | h' <;> rw [h'] at hc ⊢ <;> omega
    · have hmin : (stream.take bl.toNat).length = bl.toNat := by
        rw [List.length_take]
        omega
      rw [hmin, Nat.sub_self, List.replicate_zero, List.append_nil,
        ← List.append_assoc, List.take_append_drop]
      congr 2
      rcases hb with h' | h' <;> rw [h'] <;> omega

/-! ### The sender's happy path -/

/-- `send_stream` on a source of `n` blocks, when every response byte is
ACK: it returns the source length, leaves the configuration untouched and
writes exactly the `n` frames. -/
theorem sendStreamLoop_ok (self : Xmodem) :
    ∀ (n k : Nat) (stream : List Nat) (seqno bytes : Nat)
      (t : List (Option Nat)) (out : List Nat),
      numBlocks stream.length self.block_length.toNat = n →
      sendStreamLoop (n + 1 + k) self stream seqno bytes
          ⟨List.replicate n (some ACK) ++ t, out⟩
        = some (.ok (bytes + stream.length), self,
            ⟨t, out ++ framesN self.checksum_mode self.block_length
                  self.pad_byte n stream seqno⟩) := by
  intro n
  induction n with
  | zero =>
    intro k stream seqno bytes t out h
    have h0 : stream = [] :=
      List.eq_nil_of_length_eq_zero
        (numBlocks_eq_zero (isBL_toNat self.block_length) h)
    subst h0
    rw [show 0 + 1 + k = k + 1 from by omega]
    simp [sendStreamLoop, framesN]
  | succ n ih =>
    intro k stream seqno bytes t out h
    have hb := isBL_toNat self.block_length
    have hlen : stream.length ≠ 0 := by
      intro h0
      rw [h0] at h
      unfold numBlocks at h
      rcases hb with h' | h' <;> rw [h'] at h <;> omega
    have hd : numBlocks (stream.drop self.block_length.toNat).length
        self.block_length.toNat = n := by
      rw [List.length_drop]
      exact numBlocks_drop hb h
    have hchunk : (stream.take self.block_length.toNat).length ≠ 0 := by
      rw [List.length_take]
      rcases hb with h' | h' <;> rw [h'] <;> omega
    rw [show n + 1 + 1 + k = (n + 1 + k) + 1 from by omega]
    rw [sendStreamLoop]
    simp only [hchunk, if_neg, List.replicate_succ, List.cons_append,
      fillPacket_new, getByteTimeout_some, writeAll]
    simp only [if_true, if_false]
    rw [ih k _ _ _ t _ hd]
    have hbytes : (stream.take self.block_length.toNat).length
        + (stream.drop self.block_length.toNat).length = stream.length := by
      rw [List.length_take, List.length_drop]
      omega
    rw [Nat.add_assoc, hbytes]
    simp only [framesN, List.append_assoc]

/-! ### The receiver's happy path -/

/-- `recv`'s loop on the wire image of `n` blocks followed by EOT: it
accepts every block, writes the padded payloads to the sink, acknowledges
each frame and the EOT, and returns the padded byte count. -/
theorem recvLoop_ok (self : Xmodem) (bl : BlockLength) (pad : Nat)
    (he : self.errors < self.max_errors) :
    ∀ (n k : Nat) (stream : List Nat) (seqS seqR bytes : Nat)
      (sink : List Nat) (t : List (Option Nat)) (out : List Nat),
      numBlocks stream.length bl.toNat = n →
      seqR % 256 = (seqS + 1) % 256 →
      recvLoop (n + 1 + k) self seqR bytes sink
          ⟨(framesN self.checksum_mode bl pad n stream seqS ++ [EOT]).map some
              ++ t, out⟩
        = some (.ok (bytes + (paddedN bl pad n stream).length), self,
            sink ++ paddedN bl pad n stream,
            ⟨t, out ++ List.replicate n ACK ++ [ACK]⟩) := by
  intro n
  induction n with
  | zero =>
    intro k stream seqS seqR bytes sink t out h halign
    rw [show 0 + 1 + k = k + 1 from by omega, recvLoop]
    rw [if_neg (Nat.not_le.mpr he)]
    simp only [framesN, paddedN, List.nil_append, List.map_cons, List.map_nil,
      List.singleton_append]
    rw [recv_next_eot]
    simp [writeAll]
  | succ n ih =>
    intro k stream seqS seqR bytes sink t out h halign
    have hd : numBlocks (stream.drop bl.toNat).length bl.toNat = n := by
      rw [List.length_drop]
      exact numBlocks_drop (isBL_toNat bl) h
    have hpl : (padChunk bl pad (stream.take bl.toNat)).length = bl.toNat := by
      apply padChunk_length
      rw [List.length_take]
      omega
    rw [show n + 1 + 1 + k = (n + 1 + k) + 1 from by omega, recvLoop]
    rw [if_neg (Nat.not_le.mpr he)]
    simp only [framesN, List.append_assoc, List.map_append]
    rw [recv_next_encoded
        ⟨(seqS + 1) % 4294967296 % 256, bl, padChunk bl pad (stream.take bl.toNat)⟩
        self.checksum_mode _ _ hpl]
    have hseq : (seqS + 1) % 4294967296 % 256 = seqR % 256 := by omega
    simp only [hseq, ne_eq, not_true_eq_false, if_false, writeAll]
    rw [← List.append_assoc, ← List.map_append]
    rw [ih k _ ((seqS + 1) % 4294967296) _ _ _ t _ hd (by omega)]
    simp only [paddedN, List.length_append, hpl, List.append_assoc,
      List.replicate_succ, List.cons_append, List.nil_append,
      List.singleton_append]
    rw [Nat.add_assoc]

theorem startSendLoop_ncg (fuel : Nat) (self : Xmodem) (cancels : Nat)
    (m : Checksum) (t : List (Option Nat)) (out : List Nat) :
    startSendLoop (fuel + 1) self cancels ⟨some (ncgByte m) :: t, out⟩
      = some (.ok (), { self with checksum_mode := m }, ⟨t, out⟩) := by
  cases m <;>
    simp [startSendLoop, getByteTimeout_some, ncgByte, NAK, CRC]

theorem finishSendLoop_ack (fuel : Nat) (self : Xmodem)
    (t : List (Option Nat)) (out : List Nat) :
    finishSendLoop (fuel + 1) self ⟨some ACK :: t, out⟩
      = some (.ok (), self, ⟨t, out ++ [EOT]⟩) := by
  simp [finishSendLoop, writeAll, getByteTimeout_some]

/-- The sender's half of the lossless round trip: fed the receiver's
mode-request byte and one ACK per frame plus one for the EOT, `send`
returns the source length and writes exactly the frames followed by EOT. -/
theorem send_roundtrip (input : List Nat) (m : Checksum) (bl : BlockLength) :
    send (numBlocks input.length bl.toNat + 2)
        { Xmodem.new with block_length := bl }
        ⟨some (ncgByte m) ::
            List.replicate (numBlocks input.length bl.toNat + 1) (some ACK),
          []⟩ input
      = some (.ok input.length,
          { Xmodem.new with block_length := bl, checksum_mode := m },
          ⟨[], framesN m bl Xmodem.new.pad_byte
                (numBlocks input.length bl.toNat) input 0 ++ [EOT]⟩) := by
  rw [show ({ Xmodem.new with block_length := bl } : Xmodem)
        = ⟨16, 26, bl, .Standard, 0⟩ from rfl,
      show ({ Xmodem.new with block_length := bl, checksum_mode := m } : Xmodem)
        = ⟨16, 26, bl, m, 0⟩ from rfl,
      show Xmodem.new.pad_byte = 26 from rfl]
  simp only [send]
  rw [show numBlocks input.length bl.toNat + 2
      = numBlocks input.length bl.toNat + 1 + 1 from rfl]
  rw [startSendLoop_ncg]
  simp only [List.replicate_succ']
  rw [sendStreamLoop_ok ⟨16, 26, bl, m, 0⟩ (numBlocks input.length bl.toNat) 1
      input 0 0 [some ACK] [] rfl]
  simp only [Nat.zero_add, List.nil_append]
  rw [finishSendLoop_ack]

/-- The receiver's half of the lossless round trip: fed the frames and the
EOT, `recv` accepts every block, returns the padded length, writes the
padded input to the sink, and emits exactly the mode-request byte and the
acknowledgements. -/
theorem recv_roundtrip (input : List Nat) (m : Checksum) (bl : BlockLength) :
    recv (numBlocks input.length bl.toNat + 2)
        { Xmodem.new with block_length := bl }
        ⟨(framesN m bl Xmodem.new.pad_byte
            (numBlocks input.length bl.toNat) input 0 ++ [EOT]).map some, []⟩ m
      = some (.ok (input.length
            + (bl.toNat - input.length % bl.toNat) % bl.toNat),
          { Xmodem.new with block_length := bl, checksum_mode := m },
          input ++ List.replicate
            ((bl.toNat - input.length % bl.toNat) % bl.toNat)
            Xmodem.new.pad_byte,
          ⟨[], ncgByte m ::
              List.replicate (numBlocks input.length bl.toNat + 1) ACK⟩) := by
  rw [show ({ Xmodem.new with block_length := bl } : Xmodem)
        = ⟨16, 26, bl, .Standard, 0⟩ from rfl,
      show ({ Xmodem.new with block_length := bl, checksum_mode := m } : Xmodem)
        = ⟨16, 26, bl, m, 0⟩ from rfl,
      show Xmodem.new.pad_byte = 26 from rfl]
  rw [← List.append_nil ((framesN m bl 26
      (numBlocks input.length bl.toNat) input 0 ++ [EOT]).map some)]
  simp only [recv]
  rw [show numBlocks input.length bl.toNat + 2
      = numBlocks input.length bl.toNat + 1 + 1 from rfl]
  cases m <;>
  · simp only [ncgByte, writeAll, List.nil_append]
    rw [recvLoop_ok ⟨16, 26, bl, _, 0⟩ bl 26 (by norm_num)
        (numBlocks input.length bl.toNat) 1 input 0 1 0 [] [] _ rfl rfl]
    rw [paddedN_eq bl 26 (numBlocks input.length bl.toNat) input rfl]
    simp [List.replicate_succ']

/-! ### Claims -/

/-- C2: for every input byte sequence of length L, running send and recv
connected by a lossless loopback duplex channel (same configuration,
either checksum mode, either block length) terminates with both returning
Ok; each side reads exactly what the other writes (and consumes all of
it): the sender writes the frames followed by EOT and returns L, the
receiver writes the mode-request byte and one ACK per frame plus one for
the EOT, its sink holds the input followed by pad bytes up to the next
multiple of the block length, and it returns the padded length. -/
theorem claim_C2 (input : List Nat) (m : Checksum) (bl : BlockLength) :
    send (numBlocks input.length bl.toNat + 2)
        { Xmodem.new with block_length := bl }
        ⟨some (ncgByte m) ::
            List.replicate (numBlocks input.length bl.toNat + 1) (some ACK),
          []⟩ input
      = some (.ok input.length,
          { Xmodem.new with block_length := bl, checksum_mode := m },
          ⟨[], framesN m bl Xmodem.new.pad_byte
                (numBlocks input.length bl.toNat) input 0 ++ [EOT]⟩) ∧
    recv (numBlocks input.length bl.toNat + 2)
        { Xmodem.new with block_length := bl }
        ⟨(framesN m bl Xmodem.new.pad_byte
            (numBlocks input.length bl.toNat) input 0 ++ [EOT]).map some, []⟩ m
      = some (.ok (input.length
            + (bl.toNat - input.length % bl.toNat) % bl.toNat),
          { Xmodem.new with block_length := bl, checksum_mode := m },
          input ++ List.replicate
            ((bl.toNat - input.length % bl.toNat) % bl.toNat)
            Xmodem.new.pad_byte,
          ⟨[], ncgByte m ::
              List.replicate (numBlocks input.length bl.toNat + 1) ACK⟩) :=
  ⟨send_roundtrip input m bl, recv_roundtrip input m bl⟩

/-- The marker byte that introduces a block of the given length. -/
def blMarker : BlockLength → Nat
  | .Standard => SOH
  | .OneK => STX

/-- The number of redundancy bytes of each checksum mode. -/
def redundancyLen : Checksum → Nat
  | .Standard => 1
  | .CRC16 => 2

/-- C5: for every input byte stream whose first byte is 0x01 or 0x02,
packet decoding reads the sequence byte, the complement byte, the full
fixed-size payload and the 1- or 2-byte redundancy field, in that order,
unconditionally — the channel position after `recv_next` is past the whole
frame whatever the outcome of the checks — and when both the complement
check and the integrity check fail, the result is the sequence-mismatch
error rather than the checksum error. -/
theorem claim_C5 :
    (∀ (c : Checksum) (bl : BlockLength) (seq seq1c : Nat)
       (payload cks : List Nat) (t : List (Option Nat)) (out : List Nat),
      payload.length = bl.toNat → cks.length = redundancyLen c →
      (recv_next
          ⟨(blMarker bl :: seq :: seq1c :: (payload ++ cks)).map some ++ t,
            out⟩ c).2
        = ⟨t, out⟩) ∧
    (∀ (bl : BlockLength) (seq seq1c : Nat) (payload : List Nat) (k1 : Nat)
       (t : List (Option Nat)) (out : List Nat),
      payload.length = bl.toNat → 255 - seq ≠ seq1c →
      calc_checksum payload ≠ k1 →
      recv_next
          ⟨(blMarker bl :: seq :: seq1c :: (payload ++ [k1])).map some ++ t,
            out⟩ .Standard
        = (.error .SequenceMismatch, ⟨t, out⟩)) ∧
    (∀ (bl : BlockLength) (seq seq1c : Nat) (payload : List Nat)
       (k1 k2 : Nat) (t : List (Option Nat)) (out : List Nat),
      payload.length = bl.toNat → 255 - seq ≠ seq1c →
      calc_crc payload ≠ k1 * 256 + k2 →
      recv_next
          ⟨(blMarker bl :: seq :: seq1c :: (payload ++ [k1, k2])).map some ++ t,
            out⟩ .CRC16
        = (.error .SequenceMismatch, ⟨t, out⟩)) := by
  refine ⟨?_, ?_, ?_⟩
  · intro c bl seq seq1c payload cks t out hp hc
    cases c <;> cases bl <;> simp only [BlockLength.toNat] at hp <;>
      simp only [redundancyLen] at hc
    case Standard.Standard | Standard.OneK =>
      obtain ⟨k1, rfl⟩ := List.length_eq_one.mp hc
      simp [recv_next, getByte, blMarker, SOH, STX, EOT, recvFrame,
        BlockLength.toNat, ← hp, readBytes_map_some, readChecksumOk]
      split <;> first
      | rfl
      | split <;> rfl
    case CRC16.Standard | CRC16.OneK =>
      obtain ⟨k1, k2, rfl⟩ := List.length_eq_two.mp hc
      simp [recv_next, getByte, blMarker, SOH, STX, EOT, recvFrame,
        BlockLength.toNat, ← hp, readBytes_map_some, readChecksumOk]
      split <;> first
      | rfl
      | split <;> rfl
  · intro bl seq seq1c payload k1 t out hp hseq hcs
    cases bl <;> simp only [BlockLength.toNat] at hp <;>
      simp [recv_next, getByte, blMarker, SOH, STX, recvFrame,
        BlockLength.toNat, ← hp, readBytes_map_some, readChecksumOk, hseq]
  · intro bl seq seq1c payload k1 k2 t out hp hseq hcs
    cases bl <;> simp only [BlockLength.toNat] at hp <;>
      simp [recv_next, getByte, blMarker, SOH, STX, recvFrame,
        BlockLength.toNat, ← hp, readBytes_map_some, readChecksumOk, hseq]

/-- C6: when the receiver decodes a structurally well-formed frame whose
sequence number does not equal the expected counter modulo 256, or a frame
whose sequence byte and complement byte are internally inconsistent, it
writes CAN twice to the channel and returns Canceled immediately, without
retrying and without writing anything to the output sink for that frame. -/
theorem claim_C6 (fuel : Nat) (self : Xmodem) (seqno bytes : Nat)
    (sink : List Nat) (d : Dev) (he : self.errors < self.max_errors) :
    (∀ (x : XmodemPacket) (d' : Dev),
      recv_next d self.checksum_mode = (.ok (some x), d') →
      x.seqno ≠ seqno % 256 →
      recvLoop (fuel + 1) self seqno bytes sink d
        = some (.error .Canceled, self, sink, writeAll d' [CAN, CAN])) ∧
    (∀ d' : Dev,
      recv_next d self.checksum_mode = (.error .SequenceMismatch, d') →
      recvLoop (fuel + 1) self seqno bytes sink d
        = some (.error .Canceled, self, sink, writeAll d' [CAN, CAN])) := by
  constructor
  · intro x d' hrn hx
    rw [recvLoop, if_neg (Nat.not_le.mpr he), hrn]
    simp [hx]
  · intro d' hrn
    rw [recvLoop, if_neg (Nat.not_le.mpr he), hrn]

/-- C7: an unrecognized leading byte (anything other than 0x01, 0x02 or
0x04) makes the receiver retry with the error counter unchanged: the run
on any list of such noise bytes followed by the rest of the input is the
very same run as on the rest alone, with the same configuration state, so
noise never contributes to exhausting the error budget. -/
theorem claim_C7 (self : Xmodem) (he : self.errors < self.max_errors) :
    ∀ (noise : List Nat) (fuel seqno bytes : Nat) (sink : List Nat)
      (inc : List (Option Nat)) (out : List Nat),
      (∀ b ∈ noise, b ≠ SOH ∧ b ≠ STX ∧ b ≠ EOT) →
      recvLoop (fuel + noise.length) self seqno bytes sink
          ⟨noise.map some ++ inc, out⟩
        = recvLoop fuel self seqno bytes sink ⟨inc, out⟩ := by
  intro noise
  induction noise with
  | nil => intro fuel seqno bytes sink inc out _; rfl
  | cons b noise ih =>
    intro fuel seqno bytes sink inc out hb
    obtain ⟨hb1, hb2, hb3⟩ := hb b (List.mem_cons_self b noise)
    rw [show fuel + (b :: noise).length = (fuel + noise.length) + 1 from by
      simp; omega]
    rw [recvLoop, if_neg (Nat.not_le.mpr he)]
    rw [show ((b :: noise).map some ++ inc : List (Option Nat))
        = some b :: (noise.map some ++ inc) from by simp]
    rw [recv_next_noise _ b _ _ hb1 hb2 hb3]
    exact ih fuel seqno bytes sink inc out fun x hx =>
      hb x (List.mem_cons_of_mem b hx)

/-- The receiver never consults the configured block length: `recv`'s loop
behaves identically whatever `block_length` holds (only the returned
configuration record carries the field through). -/
theorem recvLoop_blocklength_irrelevant :
    ∀ (fuel : Nat) (me pad : Nat) (bl blf : BlockLength) (cm : Checksum)
      (er seqno bytes : Nat) (sink : List Nat) (d : Dev),
      recvLoop fuel ⟨me, pad, bl, cm, er⟩ seqno bytes sink d
        = (recvLoop fuel ⟨me, pad, blf, cm, er⟩ seqno bytes sink d).map
            (fun r => (r.1, { r.2.1 with block_length := bl }, r.2.2)) := by
  intro fuel
  induction fuel with
  | zero =>
    intro me pad bl blf cm er seqno bytes sink d
    rfl
  | succ fuel ih =>
    intro me pad bl blf cm er seqno bytes sink d
    rw [recvLoop, recvLoop]
    by_cases hm : me ≤ er
    · simp [hm]
    · simp only [show (⟨me, pad, bl, cm, er⟩ : Xmodem).max_errors = me
          from rfl,
        show (⟨me, pad, blf, cm, er⟩ : Xmodem).max_errors = me from rfl,
        show (⟨me, pad, bl, cm, er⟩ : Xmodem).errors = er from rfl,
        show (⟨me, pad, blf, cm, er⟩ : Xmodem).errors = er from rfl,
        show (⟨me, pad, bl, cm, er⟩ : Xmodem).checksum_mode = cm from rfl,
        show (⟨me, pad, blf, cm, er⟩ : Xmodem).checksum_mode = cm from rfl,
        if_neg hm]
      rcases hrn : recv_next d cm with ⟨r, d2⟩
      rcases r with e | x
      · rcases e with k | _ | _ | _ | _ | _
        · rcases k with _ | _
          · simp only []
            exact ih me pad bl blf cm (er + 1) seqno bytes sink d2
          · simp
        · simp
        · simp
        · simp only []
          exact ih me pad bl blf cm er seqno bytes sink d2
        · simp
        · simp only []
          exact ih me pad bl blf cm (er + 1) seqno bytes sink
            (writeAll d2 [NAK])
      · rcases x with _ | x
        · simp
        · by_cases hx : x.seqno = seqno % 256
          · simp only [hx, ne_eq, not_true_eq_false, if_false]
            exact ih me pad bl blf cm er ((seqno + 1) % 4294967296)
              (bytes + x.data.length) (sink ++ x.data) (writeAll d2 [ACK])
          · simp [hx]

theorem foldl_checksum (data : List Nat) :
    ∀ acc, acc < 256 →
      data.foldl (fun x y => (x + y) % 256) acc = (acc + data.sum) % 256 := by
  induction data with
  | nil =>
    intro acc h
    simp [Nat.mod_eq_of_lt h]
  | cons a l ih =>
    intro acc h
    rw [List.foldl_cons, ih _ (Nat.mod_lt _ (by norm_num)), List.sum_cons]
    omega

theorem calc_checksum_replicate (n a : Nat) :
    calc_checksum (List.replicate n a) = n * a % 256 := by
  rw [calc_checksum, foldl_checksum _ 0 (by norm_num), List.sum_replicate,
    smul_eq_mul]
  omega

/-- One accepted frame advances the receiver's loop: payload appended to
the sink, ACK written, counters advanced. -/
theorem recvLoop_accept (fuel : Nat) (self : Xmodem) (seqno bytes : Nat)
    (sink : List Nat) (p : XmodemPacket) (t : List (Option Nat))
    (out : List Nat) (he : self.errors < self.max_errors)
    (hlen : p.data.length = p.bl.toNat) (hseq : p.seqno = seqno % 256) :
    recvLoop (fuel + 1) self seqno bytes sink
        ⟨(p.sendBytes self.checksum_mode).map some ++ t, out⟩
      = recvLoop fuel self ((seqno + 1) % 4294967296) (bytes + p.data.length)
          (sink ++ p.data) ⟨t, out ++ [ACK]⟩ := by
  rw [recvLoop, if_neg (Nat.not_le.mpr he),
    recv_next_encoded p self.checksum_mode t out hlen]
  simp [hseq, writeAll]

/-- The EOT marker ends the receiver's loop: ACK written, byte count
returned. -/
theorem recvLoop_eot (fuel : Nat) (self : Xmodem) (seqno bytes : Nat)
    (sink : List Nat) (t : List (Option Nat)) (out : List Nat)
    (he : self.errors < self.max_errors) :
    recvLoop (fuel + 1) self seqno bytes sink ⟨some EOT :: t, out⟩
      = some (.ok bytes, self, sink, ⟨t, out ++ [ACK]⟩) := by
  rw [recvLoop, if_neg (Nat.not_le.mpr he), recv_next_eot]
  simp [writeAll]

/-- A single `recv` call accepting a 128-byte block, then a 1024-byte
block, then EOT (used for C9). -/
theorem recv_mixed :
    recv 3 Xmodem.new
        ⟨((SOH :: 1 :: 254 :: (List.replicate 128 5 ++ [128]))
            ++ (STX :: 2 :: 253 :: (List.replicate 1024 7 ++ [0]))
            ++ [EOT]).map some, []⟩ .Standard
      = some (.ok 1152, Xmodem.new,
          List.replicate 128 5 ++ List.replicate 1024 7,
          ⟨[], [NAK, ACK, ACK, ACK]⟩) := by
  have h1 : XmodemPacket.sendBytes ⟨1, .Standard, List.replicate 128 5⟩
        .Standard
      = SOH :: 1 :: 254 :: (List.replicate 128 5 ++ [128]) := by
    simp only [XmodemPacket.sendBytes, calc_checksum_replicate]
  have h2 : XmodemPacket.sendBytes ⟨2, .OneK, List.replicate 1024 7⟩
        .Standard
      = STX :: 2 :: 253 :: (List.replicate 1024 7 ++ [0]) := by
    simp only [XmodemPacket.sendBytes, calc_checksum_replicate]
  rw [show ((SOH :: 1 :: 254 :: (List.replicate 128 5 ++ [128]))
        ++ (STX :: 2 :: 253 :: (List.replicate 1024 7 ++ [0])) ++ [EOT])
      = XmodemPacket.sendBytes ⟨1, .Standard, List.replicate 128 5⟩ .Standard
        ++ (XmodemPacket.sendBytes ⟨2, .OneK, List.replicate 1024 7⟩ .Standard
          ++ [EOT]) from by rw [h1, h2, List.append_assoc]]
  show recvLoop 3 ⟨16, 26, .Standard, .Standard, 0⟩ 1 0 []
      ⟨((XmodemPacket.sendBytes ⟨1, .Standard, List.replicate 128 5⟩ .Standard)
          ++ ((XmodemPacket.sendBytes ⟨2, .OneK, List.replicate 1024 7⟩
                .Standard) ++ [EOT])).map some, [NAK]⟩
    = some (.ok 1152, Xmodem.new,
        List.replicate 128 5 ++ List.replicate 1024 7,
        ⟨[], [NAK, ACK, ACK, ACK]⟩)
  simp only [List.map_append, List.map_cons, List.map_nil]
  rw [show (3 : Nat) = 2 + 1 from rfl]
  rw [recvLoop_accept 2 ⟨16, 26, .Standard, .Standard, 0⟩ 1 0 []
      ⟨1, .Standard, List.replicate 128 5⟩ _ _ (by norm_num)
      (by rw [List.length_replicate]; rfl) (by norm_num)]
  rw [show (2 : Nat) = 1 + 1 from rfl]
  rw [recvLoop_accept 1 ⟨16, 26, .Standard, .Standard, 0⟩ _ _ _
      ⟨2, .OneK, List.replicate 1024 7⟩ _ _ (by norm_num)
      (by rw [List.length_replicate]; rfl) (by norm_num)]
  rw [show (1 : Nat) = 0 + 1 from rfl]
  rw [recvLoop_eot 0 ⟨16, 26, .Standard, .Standard, 0⟩ _ _ _ _ _ (by norm_num)]
  rw [List.length_replicate, List.length_replicate, List.nil_append]
  rfl

/-- C9: the receiver never consults its configured block length — `recv`
behaves identically whatever `block_length` (and only the returned record
carries the field through) — and a single `recv` call accepts a mixture of
a 128-byte and a 1024-byte block in one transfer, sized by each frame's
marker byte. -/
theorem claim_C9 :
    (∀ (fuel me pad : Nat) (bl blf : BlockLength) (cm : Checksum)
       (er : Nat) (d : Dev) (checksum : Checksum),
      recv fuel ⟨me, pad, bl, cm, er⟩ d checksum
        = (recv fuel ⟨me, pad, blf, cm, er⟩ d checksum).map
            (fun r => (r.1, { r.2.1 with block_length := bl }, r.2.2))) ∧
    recv 3 Xmodem.new
        ⟨((SOH :: 1 :: 254 :: (List.replicate 128 5 ++ [128]))
            ++ (STX :: 2 :: 253 :: (List.replicate 1024 7 ++ [0]))
            ++ [EOT]).map some, []⟩ .Standard
      = some (.ok 1152, Xmodem.new,
          List.replicate 128 5 ++ List.replicate 1024 7,
          ⟨[], [NAK, ACK, ACK, ACK]⟩) := by
  constructor
  · intro fuel me pad bl blf cm er d checksum
    exact recvLoop_blocklength_irrelevant fuel me pad bl blf checksum 0 1 0 [] _
  · exact recv_mixed

theorem getByteTimeout_shape (d : Dev) :
    ∃ r d', getByteTimeout d = (.ok r, d') := by
  obtain ⟨inc, out⟩ := d
  rcases inc with _ | ⟨_ | b, t⟩
  · exact ⟨none, _, rfl⟩
  · exact ⟨none, _, rfl⟩
  · exact ⟨some b, _, rfl⟩

/-- After the handshake the sender can only finish Ok, exhaust its retry
budget, or hit a fatal I/O fault: neither `send_stream` nor `finish_send`
ever produces Canceled (or any other error). -/
theorem sendStreamLoop_result_shape :
    ∀ (fuel : Nat) (self : Xmodem) (stream : List Nat) (seqno bytes : Nat)
      (d : Dev) (r : Except Error Nat) (s' : Xmodem) (d' : Dev),
      sendStreamLoop fuel self stream seqno bytes d = some (r, s', d') →
      (∃ n, r = .ok n) ∨ r = .error .ExhaustedRetries ∨
        ∃ k, r = .error (.Io k) := by
  intro fuel
  induction fuel with
  | zero =>
    intro self stream seqno bytes d r s' d' h
    exact absurd h (by simp [sendStreamLoop])
  | succ fuel ih =>
    intro self stream seqno bytes d r s' d' h
    rw [sendStreamLoop] at h
    split at h
    · simp only [Option.some.injEq, Prod.mk.injEq] at h
      exact .inl ⟨bytes, h.1.symm⟩
    · simp only [writeAll] at h
      split at h
      case h_1 e d2 heq =>
        obtain ⟨r0, d0, hs⟩ := getByteTimeout_shape _
        rw [hs] at heq
        simp at heq
      case h_2 b d2 heq =>
        split at h
        · exact ih _ _ _ _ _ _ _ _ h
        · split at h
          · simp only [Option.some.injEq, Prod.mk.injEq] at h
            exact .inr (.inl h.1.symm)
          · exact ih _ _ _ _ _ _ _ _ h
      case h_3 d2 heq =>
        split at h
        · simp only [Option.some.injEq, Prod.mk.injEq] at h
          exact .inr (.inl h.1.symm)
        · exact ih _ _ _ _ _ _ _ _ h

theorem finishSendLoop_result_shape :
    ∀ (fuel : Nat) (self : Xmodem) (d : Dev) (r : Except Error Unit)
      (s' : Xmodem) (d' : Dev),
      finishSendLoop fuel self d = some (r, s', d') →
      r = .ok () ∨ r = .error .ExhaustedRetries ∨ ∃ k, r = .error (.Io k) := by
  intro fuel
  induction fuel with
  | zero =>
    intro self d r s' d' h
    exact absurd h (by simp [finishSendLoop])
  | succ fuel ih =>
    intro self d r s' d' h
    rw [finishSendLoop] at h
    simp only [writeAll] at h
    split at h
    case h_1 e d2 heq =>
      obtain ⟨r0, d0, hs⟩ := getByteTimeout_shape _
      rw [hs] at heq
      simp at heq
    case h_2 b d2 heq =>
      split at h
      · simp only [Option.some.injEq, Prod.mk.injEq] at h
        exact .inl h.1.symm
      · split at h
        · simp only [Option.some.injEq, Prod.mk.injEq] at h
          exact .inr (.inl h.1.symm)
        · exact ih _ _ _ _ _ h
    case h_3 d2 heq =>
      split at h
      · simp only [Option.some.injEq, Prod.mk.injEq] at h
        exact .inr (.inl h.1.symm)
      · exact ih _ _ _ _ _ h

/-- C10: after the sender's handshake completes, the sender never returns
Canceled: any response byte other than ACK — including a CAN — is treated
exactly like any other unexpected byte while awaiting a block ACK, and the
only outcomes of `send_stream` and `finish_send` are Ok, ExhaustedRetries,
or a fatal I/O error. -/
theorem claim_C10 :
    (∀ (fuel : Nat) (self : Xmodem) (stream : List Nat) (seqno bytes : Nat)
       (d : Dev) (r : Except Error Nat) (s' : Xmodem) (d' : Dev),
      sendStreamLoop fuel self stream seqno bytes d = some (r, s', d') →
      (∃ n, r = .ok n) ∨ r = .error .ExhaustedRetries ∨
        ∃ k, r = .error (.Io k)) ∧
    (∀ (fuel : Nat) (self : Xmodem) (d : Dev) (r : Except Error Unit)
       (s' : Xmodem) (d' : Dev),
      finishSendLoop fuel self d = some (r, s', d') →
      r = .ok () ∨ r = .error .ExhaustedRetries ∨
        ∃ k, r = .error (.Io k)) ∧
    (∀ (fuel : Nat) (self : Xmodem) (stream : List Nat) (seqno bytes : Nat)
       (b b' : Nat) (inc : List (Option Nat)) (out : List Nat),
      stream ≠ [] → b ≠ ACK → b' ≠ ACK →
      sendStreamLoop fuel self stream seqno bytes ⟨some b :: inc, out⟩
        = sendStreamLoop fuel self stream seqno bytes ⟨some b' :: inc, out⟩) ∧
    (∀ (fuel : Nat) (self : Xmodem) (b b' : Nat) (inc : List (Option Nat))
       (out : List Nat),
      b ≠ ACK → b' ≠ ACK →
      finishSendLoop fuel self ⟨some b :: inc, out⟩
        = finishSendLoop fuel self ⟨some b' :: inc, out⟩) := by
  refine ⟨sendStreamLoop_result_shape, finishSendLoop_result_shape, ?_, ?_⟩
  · intro fuel self stream seqno bytes b b' inc out hs hb hb'
    cases fuel with
    | zero => rfl
    | succ fuel =>
      rw [sendStreamLoop, sendStreamLoop]
      have htake : (stream.take self.block_length.toNat).length ≠ 0 := by
        rcases isBL_toNat self.block_length with h' | h' <;>
          · rw [List.length_take, h']
            rcases stream with _ | ⟨x, xs⟩
            · exact absurd rfl hs
            · simp
      simp only [if_neg htake, writeAll, getByteTimeout_some, if_neg hb,
        if_neg hb']
  · intro fuel self b b' inc out hb hb'
    cases fuel with
    | zero => rfl
    | succ fuel =>
      rw [finishSendLoop, finishSendLoop]
      simp only [writeAll, getByteTimeout_some, if_neg hb, if_neg hb']

/-- C1 (divergence witness): the sender does NOT retransmit after a
non-ACK response.  With a 256-byte source (two 128-byte blocks) and
responses NAK then ACK, `send_stream` counts one error, then reads the
NEXT chunk from the source and transmits block 2 with sequence number 2
and the second chunk's payload — block 1 is never retransmitted — and
returns Ok(256) counting the unacknowledged block. -/
theorem claim_C1 :
    sendStreamLoop 3 Xmodem.new
        (List.replicate 128 7 ++ List.replicate 128 9) 0 0
        ⟨[some NAK, some ACK], []⟩
      = some (.ok 256, { Xmodem.new with errors := 1 },
          ⟨[], XmodemPacket.sendBytes ⟨1, .Standard, List.replicate 128 7⟩
                .Standard
            ++ XmodemPacket.sendBytes ⟨2, .Standard, List.replicate 128 9⟩
                .Standard⟩) := by
  set_option maxRecDepth 20000 in decide

/-- C3 (divergence witness): when `send_stream` or `finish_send` exhausts
the retry budget, no CAN byte is written before ExhaustedRetries is
returned: with every read timing out, `finish_send` writes only EOT bytes
and `send_stream` (max_errors = 2, 256-byte source) writes only the two
data frames, and CAN (0x18) appears nowhere in the output. -/
theorem claim_C3 :
    (finishSendLoop 16 Xmodem.new ⟨[], []⟩
        = some (.error .ExhaustedRetries, { Xmodem.new with errors := 16 },
            ⟨[], List.replicate 16 EOT⟩)
      ∧ CAN ∉ List.replicate 16 EOT) ∧
    (sendStreamLoop 2 { Xmodem.new with max_errors := 2 }
          (List.replicate 256 7) 0 0 ⟨[], []⟩
        = some (.error .ExhaustedRetries,
            { Xmodem.new with max_errors := 2, errors := 2 },
            ⟨[], framesN .Standard .Standard 26 2 (List.replicate 256 7) 0⟩)
      ∧ CAN ∉ framesN .Standard .Standard 26 2 (List.replicate 256 7) 0) := by
  refine ⟨⟨?_, ?_⟩, ?_, ?_⟩
  · set_option maxRecDepth 20000 in decide
  · decide
  · set_option maxRecDepth 20000 in decide
  · set_option maxRecDepth 20000 in decide

/-- C4 is refuted on the receiver's side: fed two CAN bytes right after
announcing its mode, the receiver treats them as unrecognized noise (no
cancellation, no error count) and, the line then staying silent, times out
until the budget is exhausted — it returns ExhaustedRetries, never
Canceled. -/
theorem claim_C4_cex :
    recv 19 Xmodem.new ⟨[some CAN, some CAN], []⟩ .Standard
      = some (.error .ExhaustedRetries, { Xmodem.new with errors := 16 }, [],
          ⟨[], [NAK, CAN, CAN]⟩) := by
  set_option maxRecDepth 20000 in decide

/-- Two consecutive CAN bytes at the head of the handshake cancel the
sender, when the error budget tolerates both faults (each CAN also counts
as an error). -/
theorem startSendLoop_two_cans (fuel : Nat) (self : Xmodem)
    (inc : List (Option Nat)) (out : List Nat)
    (hbudget : self.errors + 2 ≤ self.max_errors) :
    startSendLoop (fuel + 2) self 0 ⟨some CAN :: some CAN :: inc, out⟩
      = some (.error .Canceled, { self with errors := self.errors + 2 },
          ⟨inc, out⟩) := by
  rw [show fuel + 2 = (fuel + 1) + 1 from rfl]
  show (if self.max_errors ≤ self.errors + 1 then
      some (.error .ExhaustedRetries,
        { self with errors := self.errors + 1 },
        writeAll ⟨some CAN :: inc, out⟩ [CAN])
    else startSendLoop (fuel + 1) { self with errors := self.errors + 1 } 1
      ⟨some CAN :: inc, out⟩)
    = some (.error .Canceled, { self with errors := self.errors + 2 },
        ⟨inc, out⟩)
  rw [if_neg (by omega)]
  rfl

/-- C4 (amended): if the peer sends two consecutive CAN bytes during the
start-of-transfer handshake, the sender's transfer fails with Canceled
within one handshake attempt — the two CAN bytes are the only input
consumed — provided the configured error budget is at least two (each CAN
also counts against the budget, so a budget below two is exhausted by the
first CAN before the second is read); the receiver, however, never fails
with Canceled on CAN bytes: it treats them like any unrecognized leading
byte and skips them without incrementing the error counter. -/
theorem claim_C4 :
    (∀ (fuel : Nat) (cfg : Xmodem) (inc : List (Option Nat))
       (out : List Nat) (stream : List Nat),
      2 ≤ cfg.max_errors →
      send (fuel + 2) cfg ⟨some CAN :: some CAN :: inc, out⟩ stream
        = some (.error .Canceled, { cfg with errors := 2 }, ⟨inc, out⟩)) ∧
    (∀ (fuel : Nat) (self : Xmodem) (seqno bytes : Nat) (sink : List Nat)
       (inc : List (Option Nat)) (out : List Nat),
      self.errors < self.max_errors →
      recvLoop (fuel + 1) self seqno bytes sink ⟨some CAN :: inc, out⟩
        = recvLoop fuel self seqno bytes sink ⟨inc, out⟩) := by
  constructor
  · intro fuel cfg inc out stream hb
    simp only [send]
    rw [startSendLoop_two_cans fuel { cfg with errors := 0 } inc out
        (by exact show 0 + 2 ≤ cfg.max_errors by omega)]
  · intro fuel self seqno bytes sink inc out he
    rw [recvLoop, if_neg (Nat.not_le.mpr he),
      recv_next_noise _ CAN _ _ (by decide) (by decide) (by decide)]

/-! ### Error-counter bookkeeping (C8) -/

theorem recvLoop_errors_mono :
    ∀ (fuel : Nat) (self : Xmodem) (seqno bytes : Nat) (sink : List Nat)
      (d : Dev) (r : Except Error Nat) (s' : Xmodem) (sink' : List Nat)
      (d' : Dev),
      recvLoop fuel self seqno bytes sink d = some (r, s', sink', d') →
      self.errors ≤ s'.errors := by
  intro fuel
  induction fuel with
  | zero =>
    intro self seqno bytes sink d r s' sink' d' h
    exact absurd h (by simp [recvLoop])
  | succ fuel ih =>
    intro self seqno bytes sink d r s' sink' d' h
    rw [recvLoop] at h
    simp only [writeAll] at h
    repeat' split at h
    all_goals
      first
      | (simp only [Option.some.injEq, Prod.mk.injEq] at h
         obtain ⟨-, rfl, -, -⟩ := h
         exact Nat.le_of_eq rfl)
      | exact ih _ _ _ _ _ _ _ _ _ h
      | (have h2 : self.errors + 1 ≤ s'.errors := ih _ _ _ _ _ _ _ _ _ h
         omega)

theorem startSendLoop_errors_mono :
    ∀ (fuel : Nat) (self : Xmodem) (cancels : Nat) (d : Dev)
      (r : Except Error Unit) (s' : Xmodem) (d' : Dev),
      startSendLoop fuel self cancels d = some (r, s', d') →
      self.errors ≤ s'.errors := by
  intro fuel
  induction fuel with
  | zero =>
    intro self cancels d r s' d' h
    exact absurd h (by simp [startSendLoop])
  | succ fuel ih =>
    intro self cancels d r s' d' h
    rw [startSendLoop] at h
    simp only [writeAll] at h
    repeat' split at h
    all_goals
      first
      | (simp only [Option.some.injEq, Prod.mk.injEq] at h
         obtain ⟨-, rfl, -⟩ := h
         first
         | exact Nat.le_of_eq rfl
         | exact Nat.le_succ _)
      | exact ih _ _ _ _ _ _ h
      | (have h2 : self.errors + 1 ≤ s'.errors := ih _ _ _ _ _ _ h
         omega)

theorem sendStreamLoop_errors_mono :
    ∀ (fuel : Nat) (self : Xmodem) (stream : List Nat) (seqno bytes : Nat)
      (d : Dev) (r : Except Error Nat) (s' : Xmodem) (d' : Dev),
      sendStreamLoop fuel self stream seqno bytes d = some (r, s', d') →
      self.errors ≤ s'.errors := by
  intro fuel
  induction fuel with
  | zero =>
    intro self stream seqno bytes d r s' d' h
    exact absurd h (by simp [sendStreamLoop])
  | succ fuel ih =>
    intro self stream seqno bytes d r s' d' h
    rw [sendStreamLoop] at h
    simp only [writeAll] at h
    repeat' split at h
    all_goals
      first
      | (simp only [Option.some.injEq, Prod.mk.injEq] at h
         obtain ⟨-, rfl, -⟩ := h
         first
         | exact Nat.le_of_eq rfl
         | exact Nat.le_succ _)
      | exact ih _ _ _ _ _ _ _ _ h
      | (have h2 : self.errors + 1 ≤ s'.errors := ih _ _ _ _ _ _ _ _ h
         omega)

theorem finishSendLoop_errors_mono :
    ∀ (fuel : Nat) (self : Xmodem) (d : Dev) (r : Except Error Unit)
      (s' : Xmodem) (d' : Dev),
      finishSendLoop fuel self d = some (r, s', d') →
      self.errors ≤ s'.errors := by
  intro fuel
  induction fuel with
  | zero =>
    intro self d r s' d' h
    exact absurd h (by simp [finishSendLoop])
  | succ fuel ih =>
    intro self d r s' d' h
    rw [finishSendLoop] at h
    simp only [writeAll] at h
    repeat' split at h
    all_goals
      first
      | (simp only [Option.some.injEq, Prod.mk.injEq] at h
         obtain ⟨-, rfl, -⟩ := h
         first
         | exact Nat.le_of_eq rfl
         | exact Nat.le_succ _)
      | exact ih _ _ _ _ _ h
      | (have h2 : self.errors + 1 ≤ s'.errors := ih _ _ _ _ _ h
         omega)

/-- At the top of the receive loop, a counter at (or past) the maximum
aborts at once with ExhaustedRetries. -/
theorem recvLoop_at_max (fuel : Nat) (self : Xmodem) (seqno bytes : Nat)
    (sink : List Nat) (d : Dev) (h : self.max_errors ≤ self.errors) :
    recvLoop (fuel + 1) self seqno bytes sink d
      = some (.error .ExhaustedRetries, self, sink, writeAll d [CAN, CAN]) := by
  rw [recvLoop, if_pos h]

theorem recvLoop_bound :
    ∀ (fuel : Nat) (self : Xmodem) (seqno bytes : Nat) (sink : List Nat)
      (d : Dev) (r : Except Error Nat) (s' : Xmodem) (sink' : List Nat)
      (d' : Dev),
      self.errors ≤ self.max_errors →
      recvLoop fuel self seqno bytes sink d = some (r, s', sink', d') →
      s'.errors ≤ self.max_errors ∧
        (s'.errors = self.max_errors → r = .error .ExhaustedRetries) := by
  intro fuel
  induction fuel with
  | zero =>
    intro self seqno bytes sink d r s' sink' d' hle h
    exact absurd h (by simp [recvLoop])
  | succ fuel ih =>
    intro self seqno bytes sink d r s' sink' d' hle h
    rw [recvLoop] at h
    simp only [writeAll] at h
    repeat' split at h
    all_goals
      first
      | (simp only [Option.some.injEq, Prod.mk.injEq] at h
         obtain ⟨rfl, rfl, -, -⟩ := h
         first
         | exact ⟨hle, fun _ => rfl⟩
         | exact ⟨hle, fun hh =>
             absurd (show self.errors = self.max_errors from hh) (by omega)⟩)
      | exact ih _ _ _ _ _ _ _ _ _ hle h
      | exact ih { self with errors := self.errors + 1 } _ _ _ _ _ _ _ _
          (by exact show self.errors + 1 ≤ self.max_errors by omega) h

theorem startSendLoop_bound :
    ∀ (fuel : Nat) (self : Xmodem) (cancels : Nat) (d : Dev)
      (r : Except Error Unit) (s' : Xmodem) (d' : Dev),
      self.errors < self.max_errors →
      startSendLoop fuel self cancels d = some (r, s', d') →
      s'.errors ≤ self.max_errors ∧
        (s'.errors = self.max_errors →
          r = .error .ExhaustedRetries ∨ r = .error .Canceled) := by
  intro fuel
  induction fuel with
  | zero =>
    intro self cancels d r s' d' hlt h
    exact absurd h (by simp [startSendLoop])
  | succ fuel ih =>
    intro self cancels d r s' d' hlt h
    rw [startSendLoop] at h
    simp only [writeAll] at h
    repeat' split at h
    all_goals
      first
      | (simp only [Option.some.injEq, Prod.mk.injEq] at h
         obtain ⟨rfl, rfl, -⟩ := h
         first
         | exact ⟨Nat.le_of_lt hlt, fun hh =>
             absurd (show self.errors = self.max_errors from hh) (by omega)⟩
         | exact ⟨hlt, fun _ => .inr rfl⟩
         | exact ⟨hlt, fun _ => .inl rfl⟩)
      | exact ih { self with errors := self.errors + 1 } _ _ _ _ _
          (by exact show self.errors + 1 < self.max_errors by omega) h

theorem sendStreamLoop_bound :
    ∀ (fuel : Nat) (self : Xmodem) (stream : List Nat) (seqno bytes : Nat)
      (d : Dev) (r : Except Error Nat) (s' : Xmodem) (d' : Dev),
      self.errors < self.max_errors →
      sendStreamLoop fuel self stream seqno bytes d = some (r, s', d') →
      s'.errors ≤ self.max_errors ∧
        (s'.errors = self.max_errors → r = .error .ExhaustedRetries) := by
  intro fuel
  induction fuel with
  | zero =>
    intro self stream seqno bytes d r s' d' hlt h
    exact absurd h (by simp [sendStreamLoop])
  | succ fuel ih =>
    intro self stream seqno bytes d r s' d' hlt h
    rw [sendStreamLoop] at h
    simp only [writeAll] at h
    repeat' split at h
    all_goals
      first
      | (simp only [Option.some.injEq, Prod.mk.injEq] at h
         obtain ⟨rfl, rfl, -⟩ := h
         first
         | exact ⟨Nat.le_of_lt hlt, fun hh =>
             absurd (show self.errors = self.max_errors from hh) (by omega)⟩
         | exact ⟨hlt, fun _ => rfl⟩)
      | exact ih _ _ _ _ _ _ _ _ hlt h
      | exact ih { self with errors := self.errors + 1 } _ _ _ _ _ _ _
          (by exact show self.errors + 1 < self.max_errors by omega) h

theorem finishSendLoop_bound :
    ∀ (fuel : Nat) (self : Xmodem) (d : Dev) (r : Except Error Unit)
      (s' : Xmodem) (d' : Dev),
      self.errors < self.max_errors →
      finishSendLoop fuel self d = some (r, s', d') →
      s'.errors ≤ self.max_errors ∧
        (s'.errors = self.max_errors → r = .error .ExhaustedRetries) := by
  intro fuel
  induction fuel with
  | zero =>
    intro self d r s' d' hlt h
    exact absurd h (by simp [finishSendLoop])
  | succ fuel ih =>
    intro self d r s' d' hlt h
    rw [finishSendLoop] at h
    simp only [writeAll] at h
    repeat' split at h
    all_goals
      first
      | (simp only [Option.some.injEq, Prod.mk.injEq] at h
         obtain ⟨rfl, rfl, -⟩ := h
         first
         | exact ⟨Nat.le_of_lt hlt, fun hh =>
             absurd (show self.errors = self.max_errors from hh) (by omega)⟩
         | exact ⟨hlt, fun _ => rfl⟩)
      | exact ih _ _ _ _ _ hlt h
      | exact ih { self with errors := self.errors + 1 } _ _ _ _
          (by exact show self.errors + 1 < self.max_errors by omega) h

/-- C8 is refuted in one corner: with max_errors = 2, a sender fed two CAN
bytes terminates the transfer with Canceled at the very moment the error
counter reaches the configured maximum — not with ExhaustedRetries as the
claim states. -/
theorem claim_C8_cex :
    send 3 { Xmodem.new with max_errors := 2 } ⟨[some CAN, some CAN], []⟩ []
        = some (.error .Canceled,
            { Xmodem.new with max_errors := 2, errors := 2 }, ⟨[], []⟩)
      ∧ ({ Xmodem.new with max_errors := 2, errors := 2 } : Xmodem).errors
        = ({ Xmodem.new with max_errors := 2, errors := 2 } : Xmodem).max_errors := by
  exact ⟨by decide, rfl⟩

/-- C8 (amended): the error counter is reset to zero exactly at the start
of each `send` and `recv` call, is never decreased during a transfer, and
a counter that reaches the configured maximum terminates the transfer at
once — with ExhaustedRetries, except that in the sender's handshake the
second CAN byte takes precedence and yields Canceled when both conditions
are reached by the same byte. -/
theorem claim_C8 :
    ((∀ (fuel : Nat) (self : Xmodem) (d : Dev) (stream : List Nat),
        send fuel self d stream = send fuel { self with errors := 0 } d stream) ∧
      (∀ (fuel : Nat) (self : Xmodem) (d : Dev) (c : Checksum),
        recv fuel self d c = recv fuel { self with errors := 0 } d c)) ∧
    ((∀ (fuel : Nat) (self : Xmodem) (seqno bytes : Nat) (sink : List Nat)
        (d : Dev) (r : Except Error Nat) (s' : Xmodem) (sink' : List Nat)
        (d' : Dev),
        recvLoop fuel self seqno bytes sink d = some (r, s', sink', d') →
        self.errors ≤ s'.errors) ∧
      (∀ (fuel : Nat) (self : Xmodem) (cancels : Nat) (d : Dev)
        (r : Except Error Unit) (s' : Xmodem) (d' : Dev),
        startSendLoop fuel self cancels d = some (r, s', d') →
        self.errors ≤ s'.errors) ∧
      (∀ (fuel : Nat) (self : Xmodem) (stream : List Nat) (seqno bytes : Nat)
        (d : Dev) (r : Except Error Nat) (s' : Xmodem) (d' : Dev),
        sendStreamLoop fuel self stream seqno bytes d = some (r, s', d') →
        self.errors ≤ s'.errors) ∧
      (∀ (fuel : Nat) (self : Xmodem) (d : Dev) (r : Except Error Unit)
        (s' : Xmodem) (d' : Dev),
        finishSendLoop fuel self d = some (r, s', d') →
        self.errors ≤ s'.errors)) ∧
    ((∀ (fuel : Nat) (self : Xmodem) (seqno bytes : Nat) (sink : List Nat)
        (d : Dev),
        self.max_errors ≤ self.errors →
        recvLoop (fuel + 1) self seqno bytes sink d
          = some (.error .ExhaustedRetries, self, sink,
              writeAll d [CAN, CAN])) ∧
      (∀ (fuel : Nat) (self : Xmodem) (seqno bytes : Nat) (sink : List Nat)
        (d : Dev) (r : Except Error Nat) (s' : Xmodem) (sink' : List Nat)
        (d' : Dev),
        self.errors ≤ self.max_errors →
        recvLoop fuel self seqno bytes sink d = some (r, s', sink', d') →
        s'.errors ≤ self.max_errors ∧
          (s'.errors = self.max_errors → r = .error .ExhaustedRetries)) ∧
      (∀ (fuel : Nat) (self : Xmodem) (cancels : Nat) (d : Dev)
        (r : Except Error Unit) (s' : Xmodem) (d' : Dev),
        self.errors < self.max_errors →
        startSendLoop fuel self cancels d = some (r, s', d') →
        s'.errors ≤ self.max_errors ∧
          (s'.errors = self.max_errors →
            r = .error .ExhaustedRetries ∨ r = .error .Canceled)) ∧
      (∀ (fuel : Nat) (self : Xmodem) (stream : List Nat) (seqno bytes : Nat)
        (d : Dev) (r : Except Error Nat) (s' : Xmodem) (d' : Dev),
        self.errors < self.max_errors →
        sendStreamLoop fuel self stream seqno bytes d = some (r, s', d') →
        s'.errors ≤ self.max_errors ∧
          (s'.errors = self.max_errors → r = .error .ExhaustedRetries)) ∧
      (∀ (fuel : Nat) (self : Xmodem) (d : Dev) (r : Except Error Unit)
        (s' : Xmodem) (d' : Dev),
        self.errors < self.max_errors →
        finishSendLoop fuel self d = some (r, s', d') →
        s'.errors ≤ self.max_errors ∧
          (s'.errors = self.max_errors → r = .error .ExhaustedRetries))) :=
  ⟨⟨fun _ _ _ _ => rfl, fun _ _ _ _ => rfl⟩,
   ⟨recvLoop_errors_mono, startSendLoop_errors_mono,
    sendStreamLoop_errors_mono, finishSendLoop_errors_mono⟩,
   ⟨recvLoop_at_max, recvLoop_bound, startSendLoop_bound,
    sendStreamLoop_bound, finishSendLoop_bound⟩⟩

/-! ### Witnesses -/

theorem crcFeed_zero : crcFeed 0 0 = 0 := by decide

theorem calc_crc_replicate_zero (n : Nat) :
    calc_crc (List.replicate n 0) = 0 := by
  induction n with
  | zero => rfl
  | succ n ih =>
    rw [calc_crc, List.replicate_succ, List.foldl_cons, crcFeed_zero]
    exact ih

theorem claim_C4_witness :
    send 2 Xmodem.new ⟨[some CAN, some CAN], []⟩ []
        = some (.error .Canceled, { Xmodem.new with errors := 2 },
            ⟨[], []⟩) ∧
    recvLoop 2 Xmodem.new 1 0 [] ⟨[some CAN], []⟩
        = recvLoop 1 Xmodem.new 1 0 [] ⟨[], []⟩ :=
  ⟨claim_C4.1 0 Xmodem.new [] [] [] (by decide),
   claim_C4.2 1 Xmodem.new 1 0 [] [] [] (by decide)⟩

set_option maxRecDepth 20000 in
theorem claim_C5_witness :
    (recv_next
        ⟨(blMarker .Standard :: 3 :: 9
            :: (List.replicate 128 0 ++ [5])).map some, []⟩ .Standard).2
      = ⟨[], []⟩ ∧
    recv_next
        ⟨(blMarker .Standard :: 3 :: 9
            :: (List.replicate 128 0 ++ [5])).map some, []⟩ .Standard
      = (.error .SequenceMismatch, ⟨[], []⟩) ∧
    recv_next
        ⟨(blMarker .Standard :: 3 :: 9
            :: (List.replicate 128 0 ++ [0, 1])).map some, []⟩ .CRC16
      = (.error .SequenceMismatch, ⟨[], []⟩) :=
  ⟨claim_C5.1 .Standard .Standard 3 9 (List.replicate 128 0) [5] [] []
      (by decide) rfl,
   claim_C5.2.1 .Standard 3 9 (List.replicate 128 0) 5 [] []
      (by decide) (by decide) (by decide),
   claim_C5.2.2 .Standard 3 9 (List.replicate 128 0) 0 1 [] []
      (by decide) (by decide)
      (by rw [calc_crc_replicate_zero]; decide)⟩

theorem claim_C6_witness :
    recvLoop 1 Xmodem.new 1 0 []
        ⟨(XmodemPacket.sendBytes ⟨5, .Standard, List.replicate 128 0⟩
            .Standard).map some, []⟩
      = some (.error .Canceled, Xmodem.new, [],
          writeAll ⟨[], []⟩ [CAN, CAN]) ∧
    recvLoop 1 Xmodem.new 1 0 []
        ⟨((1 : Nat) :: 5 :: 0 :: (List.replicate 128 0 ++ [0])).map some, []⟩
      = some (.error .Canceled, Xmodem.new, [],
          writeAll ⟨[], []⟩ [CAN, CAN]) :=
  ⟨(claim_C6 0 Xmodem.new 1 0 []
      ⟨(XmodemPacket.sendBytes ⟨5, .Standard, List.replicate 128 0⟩
          .Standard).map some, []⟩ (by decide)).1
      ⟨5, .Standard, List.replicate 128 0⟩ ⟨[], []⟩
      (by set_option maxRecDepth 20000 in decide) (by decide),
   (claim_C6 0 Xmodem.new 1 0 []
      ⟨((1 : Nat) :: 5 :: 0 :: (List.replicate 128 0 ++ [0])).map some, []⟩
      (by decide)).2 ⟨[], []⟩
      (by set_option maxRecDepth 20000 in decide)⟩

theorem claim_C7_witness :
    recvLoop 4 Xmodem.new 1 0 []
        ⟨([CAN, 0, 99].map some : List (Option Nat)) ++ [some EOT], [NAK]⟩
      = recvLoop 1 Xmodem.new 1 0 [] ⟨[some EOT], [NAK]⟩ :=
  claim_C7 Xmodem.new (by decide) [CAN, 0, 99] 1 1 0 [] [some EOT] [NAK]
    (by decide)

theorem claim_C8_witness :
    (send 1 ⟨16, 26, .Standard, .Standard, 7⟩ ⟨[], []⟩ []
        = send 1 { (⟨16, 26, .Standard, .Standard, 7⟩ : Xmodem) with
            errors := 0 } ⟨[], []⟩ [] ∧
      recv 1 ⟨16, 26, .Standard, .Standard, 7⟩ ⟨[], []⟩ .Standard
        = recv 1 { (⟨16, 26, .Standard, .Standard, 7⟩ : Xmodem) with
            errors := 0 } ⟨[], []⟩ .Standard) ∧
    (Xmodem.new.errors ≤ Xmodem.new.errors ∧
      Xmodem.new.errors ≤ Xmodem.new.errors ∧
      Xmodem.new.errors ≤ Xmodem.new.errors ∧
      Xmodem.new.errors ≤ Xmodem.new.errors) ∧
    (recvLoop 1 { Xmodem.new with errors := 16 } 1 0 [] ⟨[], []⟩
        = some (.error .ExhaustedRetries, { Xmodem.new with errors := 16 },
            [], writeAll ⟨[], []⟩ [CAN, CAN]) ∧
      (Xmodem.new.errors ≤ Xmodem.new.max_errors ∧
        (Xmodem.new.errors = Xmodem.new.max_errors →
          (Except.ok 0 : Except Error Nat) = .error .ExhaustedRetries)) ∧
      (Xmodem.new.errors ≤ Xmodem.new.max_errors ∧
        (Xmodem.new.errors = Xmodem.new.max_errors →
          (Except.ok () : Except Error Unit) = .error .ExhaustedRetries ∨
            (Except.ok () : Except Error Unit) = .error .Canceled)) ∧
      (Xmodem.new.errors ≤ Xmodem.new.max_errors ∧
        (Xmodem.new.errors = Xmodem.new.max_errors →
          (Except.ok 0 : Except Error Nat) = .error .ExhaustedRetries)) ∧
      (Xmodem.new.errors ≤ Xmodem.new.max_errors ∧
        (Xmodem.new.errors = Xmodem.new.max_errors →
          (Except.ok () : Except Error Unit) = .error .ExhaustedRetries))) :=
  ⟨⟨claim_C8.1.1 1 ⟨16, 26, .Standard, .Standard, 7⟩ ⟨[], []⟩ [],
    claim_C8.1.2 1 ⟨16, 26, .Standard, .Standard, 7⟩ ⟨[], []⟩ .Standard⟩,
   ⟨claim_C8.2.1.1 1 Xmodem.new 1 0 [] ⟨[some EOT], []⟩ (.ok 0) Xmodem.new
      [] ⟨[], [ACK]⟩ (by decide),
    claim_C8.2.1.2.1 1 Xmodem.new 0 ⟨[some NAK], []⟩ (.ok ()) Xmodem.new
      ⟨[], []⟩ (by decide),
    claim_C8.2.1.2.2.1 1 Xmodem.new [] 0 0 ⟨[], []⟩ (.ok 0) Xmodem.new
      ⟨[], []⟩ (by decide),
    claim_C8.2.1.2.2.2 1 Xmodem.new ⟨[some ACK], []⟩ (.ok ()) Xmodem.new
      ⟨[], [EOT]⟩ (by decide)⟩,
   ⟨claim_C8.2.2.1 0 { Xmodem.new with errors := 16 } 1 0 [] ⟨[], []⟩
      (by decide),
    claim_C8.2.2.2.1 1 Xmodem.new 1 0 [] ⟨[some EOT], []⟩ (.ok 0) Xmodem.new
      [] ⟨[], [ACK]⟩ (by decide) (by decide),
    claim_C8.2.2.2.2.1 1 Xmodem.new 0 ⟨[some NAK], []⟩ (.ok ()) Xmodem.new
      ⟨[], []⟩ (by decide) (by decide),
    claim_C8.2.2.2.2.2.1 1 Xmodem.new [] 0 0 ⟨[], []⟩ (.ok 0) Xmodem.new
      ⟨[], []⟩ (by decide) (by decide),
    claim_C8.2.2.2.2.2.2 1 Xmodem.new ⟨[some ACK], []⟩ (.ok ()) Xmodem.new
      ⟨[], [EOT]⟩ (by decide) (by decide)⟩⟩

theorem claim_C10_witness :
    ((∃ n, (Except.ok 0 : Except Error Nat) = .ok n) ∨
      (Except.ok 0 : Except Error Nat) = .error .ExhaustedRetries ∨
      ∃ k, (Except.ok 0 : Except Error Nat) = .error (.Io k)) ∧
    ((Except.ok () : Except Error Unit) = .ok () ∨
      (Except.ok () : Except Error Unit) = .error .ExhaustedRetries ∨
      ∃ k, (Except.ok () : Except Error Unit) = .error (.Io k)) ∧
    sendStreamLoop 1 Xmodem.new [1] 0 0 ⟨[some CAN], []⟩
      = sendStreamLoop 1 Xmodem.new [1] 0 0 ⟨[some 0], []⟩ ∧
    finishSendLoop 1 Xmodem.new ⟨[some CAN], []⟩
      = finishSendLoop 1 Xmodem.new ⟨[some 0], []⟩ :=
  ⟨claim_C10.1 1 Xmodem.new [] 0 0 ⟨[], []⟩ (.ok 0) Xmodem.new ⟨[], []⟩
      (by decide),
   claim_C10.2.1 1 Xmodem.new ⟨[some ACK], []⟩ (.ok ()) Xmodem.new
      ⟨[], [EOT]⟩ (by decide),
   claim_C10.2.2.1 1 Xmodem.new [1] 0 0 24 0 [] [] (by decide) (by decide)
      (by decide),
   claim_C10.2.2.2 1 Xmodem.new 24 0 [] [] (by decide) (by decide)⟩

end Xmodemrs
